import Mathlib

/-!
Shallow embedding of the socketcan2 crate (src/lib.rs): the `Can` endpoint,
the reusable `Msg` receive buffer with its accessors and timestamp decoder,
and the `CanGroup` epoll-based multiplexer.  OS interaction (syscall results,
readiness events, received datagrams) is passed in explicitly as environment
parameters; syscalls performed by `Can::open` are recorded in a trace.
All numeric constants are the Linux x86-64 values used by the `libc` crate.
-/

set_option autoImplicit false

namespace Socketcan2

/-! ## Control messages and the timestamp decoder (`Msg::timestamp`) -/

/-- Linux value of `libc::SOL_SOCKET`. -/
def SOL_SOCKET : Int := 1

/-- Linux x86-64 value of `libc::SO_TIMESTAMP`. -/
def SO_TIMESTAMP : Int := 29

/-- Linux x86-64 value of `libc::SO_TIMESTAMPING`. -/
def SO_TIMESTAMPING : Int := 37

/-- Model of `libc::timeval` (two 64-bit signed fields on x86-64). -/
structure Timeval where
  tv_sec : Int
  tv_usec : Int
deriving DecidableEq, Repr

/-- Model of `libc::timespec` (two 64-bit signed fields on x86-64). -/
structure Timespec where
  tv_sec : Int
  tv_nsec : Int
deriving DecidableEq, Repr

/-- Payload behind `CMSG_DATA` of one control message.  The code reinterprets
the raw bytes as either a `timeval` or (the first of three) `timespec`;
on x86-64 the two structs have the identical layout of two `i64` fields,
so each payload determines both views (see `CmsgData.asTimeval`). -/
inductive CmsgData where
  | timeval (tv : Timeval)
  | timespec (ts : Timespec)
deriving DecidableEq, Repr

/-- Reinterpretation of the payload bytes as a `timeval`, mirroring the cast
`libc::CMSG_DATA(cmsg) as *const libc::timeval` (identical field layout). -/
def CmsgData.asTimeval : CmsgData → Timeval
  | .timeval tv => tv
  | .timespec ts => ⟨ts.tv_sec, ts.tv_nsec⟩

/-- Reinterpretation of the payload bytes as a `timespec`, mirroring the cast
`libc::CMSG_DATA(cmsg) as *const libc::timespec`. -/
def CmsgData.asTimespec : CmsgData → Timespec
  | .timeval tv => ⟨tv.tv_sec, tv.tv_usec⟩
  | .timespec ts => ts

/-- Model of one ancillary (control) message header plus payload. -/
structure Cmsg where
  cmsg_level : Int
  cmsg_type : Int
  data : CmsgData
deriving DecidableEq, Repr

/-- Model of `std::io::Error` values the crate constructs:
`noSuchDevice` is `io::Error::new(ErrorKind::Other, "No such device")`,
`unsupportedTs` is `io::Error::new(ErrorKind::Unsupported, "timestamps aren't supported")`,
and `osError errno` is `io::Error::last_os_error()` with the given errno. -/
inductive IoError where
  | noSuchDevice
  | unsupportedTs
  | osError (errno : Int)
deriving DecidableEq, Repr

/-- Model of `chrono::Duration` by its total length in nanoseconds. -/
structure Duration where
  nanos : Int
deriving DecidableEq, Repr

/-- Model of `chrono::Duration::milliseconds`: `ms` milliseconds is
`ms * 10^6` nanoseconds. -/
def Duration.milliseconds (ms : Int) : Duration :=
  ⟨ms * 1000000⟩

/-- Wrap-around of two's-complement 64-bit arithmetic, for the `i64`
multiplications and additions in `Msg::timestamp` (release-mode semantics).
Wrapping each intermediate operation equals wrapping the exact result once,
so a single outer wrap is used. -/
def i64wrap (x : Int) : Int :=
  (x + 2 ^ 63) % 2 ^ 64 - 2 ^ 63

/-- Model of `Msg::timestamp`: walk the control-message chain from
`CMSG_FIRSTHDR`, breaking at the end of the chain or at the first message
whose level is not `SOL_SOCKET`; on `SO_TIMESTAMP` return
`Duration::milliseconds(tv_sec * 1000000000 + tv_usec * 1000)`, on
`SO_TIMESTAMPING` return `Duration::milliseconds(tv_sec * 1000000000 + tv_nsec)`;
if the loop ends without a match, return the `Unsupported` error. -/
def decode_timestamp : List Cmsg → Except IoError Duration
  | [] => .error .unsupportedTs
  | c :: rest =>
    if c.cmsg_level ≠ SOL_SOCKET then
      .error .unsupportedTs
    else if c.cmsg_type = SO_TIMESTAMP then
      .ok (Duration.milliseconds
        (i64wrap (c.data.asTimeval.tv_sec * 1000000000 + c.data.asTimeval.tv_usec * 1000)))
    else if c.cmsg_type = SO_TIMESTAMPING then
      .ok (Duration.milliseconds
        (i64wrap (c.data.asTimespec.tv_sec * 1000000000 + c.data.asTimespec.tv_nsec)))
    else
      decode_timestamp rest

/-- Longest leading run of control messages at level `SOL_SOCKET`: exactly
the messages the scan loop of `Msg::timestamp` can visit. -/
def solScan (msgs : List Cmsg) : List Cmsg :=
  msgs.takeWhile (fun c => c.cmsg_level == SOL_SOCKET)

/-! ## The reusable receive buffer (`Msg`) -/

/-- Byte size of `libc::canfd_frame` on Linux: 4 (can_id) + 1 (len) +
1 (flags) + 2 (reserved) + 64 (data). -/
def sizeof_canfd_frame : Nat := 72

/-- Byte size of `libc::sockaddr_can` on Linux x86-64. -/
def sizeof_sockaddr_can : Nat := 24

/-- Byte size of the `ctrlmsg` array of `Msg`:
`CMSG_SPACE(sizeof timeval) + CMSG_SPACE(3 * sizeof timespec) + CMSG_SPACE(sizeof u32)`
= 32 + 64 + 24 on Linux x86-64. -/
def sizeof_ctrlmsg : Nat := 120

/-- Model of the `Msg` struct.  `frame` is the 72-byte region of the embedded
`canfd_frame` the kernel writes into through `iov` (byte layout: bytes 0-3 =
`can_id` little endian, byte 4 = `len`, byte 5 = `flags`, bytes 6-7 reserved,
bytes 8-71 = `data[64]`).  `ctrl` is the decoded view of the `ctrlmsg` region
after the last receive.  The remaining fields model the mutable `msghdr` and
`iovec` length/flag fields that `recvmsg` overwrites and `reset` restores.
The self-referential pointers (`iov_base`, `msg_name`, `msg_iov`,
`msg_control`), set up once by `Msg::new`, always target the fields modeled
here, so they are left implicit. -/
structure Msg where
  frame : List Nat
  ctrl : List Cmsg
  msg_iovlen : Nat
  iov_len : Nat
  msg_namelen : Nat
  msg_controllen : Nat
  msg_flags : Nat
deriving DecidableEq, Repr

/-- Model of `Msg::reset`: restore `msg_iovlen`, the iovec length, the name
length and the control length to their expected sizes and clear `msg_flags`.
Note it touches nothing else: in particular the `frame` region and the
control messages of the previous receive are left as they are. -/
def Msg.reset (m : Msg) : Msg :=
  { m with
    msg_iovlen := 1,
    iov_len := sizeof_canfd_frame,
    msg_namelen := sizeof_sockaddr_can,
    msg_controllen := sizeof_ctrlmsg,
    msg_flags := 0 }

/-- Model of `Msg::new`: the buffer starts as uninitialized memory
(`MaybeUninit`, passed in here as arbitrary contents), the self-referential
pointers are wired (implicit in this model) and `reset` is applied. -/
def Msg.new (uninitFrame : List Nat) (uninitCtrl : List Cmsg) : Msg :=
  Msg.reset ⟨uninitFrame, uninitCtrl, 0, 0, 0, 0, 0⟩

/-- Model of `Msg::can_id`: the `can_id` field of the embedded `canfd_frame`,
read little endian from bytes 0-3 of the frame region. -/
def Msg.can_id (m : Msg) : Nat :=
  m.frame.getD 0 0 + 256 * m.frame.getD 1 0 + 65536 * m.frame.getD 2 0 +
    16777216 * m.frame.getD 3 0

/-- Model of `Msg::len`: the `len` field of the embedded `canfd_frame`
(byte 4 of the frame region). -/
def Msg.len (m : Msg) : Nat :=
  m.frame.getD 4 0

/-- Model of `Msg::flags`: the `flags` field of the embedded `canfd_frame`
(byte 5 of the frame region). -/
def Msg.flags (m : Msg) : Nat :=
  m.frame.getD 5 0

/-- Model of `impl Index<usize> for Msg`: `&self.frame.data[index]` indexes
the fixed 64-byte `data` array (bytes 8-71 of the frame region); an index
of 64 or more panics in Rust, modeled as `none`. -/
def Msg.index (m : Msg) (i : Nat) : Option Nat :=
  if i < 64 then some (m.frame.getD (8 + i) 0) else none

/-- Outcome of one `recvmsg` call, supplied by the environment: either an
errno, or the datagram bytes written into the frame region together with the
control messages and the `msg_namelen`, `msg_controllen` and `msg_flags`
values the kernel stores into the `msghdr`. -/
inductive RecvResult where
  | err (errno : Int)
  | ok (bytes : List Nat) (namelenOut : Nat) (controllenOut : Nat)
      (flagsOut : Nat) (ctrlOut : List Cmsg)
deriving Repr

/-- Kernel side of a successful `recvmsg`: at most `iov_len` datagram bytes
are written at the start of the frame region (a short datagram leaves the
tail bytes as they were), and the control view and `msghdr` output fields
are stored. -/
def Msg.deliver (m : Msg) (bytes : List Nat) (namelenOut controllenOut flagsOut : Nat)
    (ctrlOut : List Cmsg) : Msg :=
  let written := bytes.take m.iov_len
  { m with
    frame := written ++ m.frame.drop written.length,
    ctrl := ctrlOut,
    msg_namelen := namelenOut,
    msg_controllen := controllenOut,
    msg_flags := flagsOut }

/-- Model of a CAN socket handle (`Can { fd }`). -/
structure Can where
  fd : Int
deriving DecidableEq, Repr

/-- Model of `Can::recv`: reset the message, then perform one `recvmsg` whose
outcome `r` the environment supplies; a negative return yields
`io::Error::last_os_error()` (the reset message is kept, nothing was
written), otherwise the delivered message and `Ok(())`. -/
def Can.recv (_self : Can) (m : Msg) (r : RecvResult) : Msg × Except IoError Unit :=
  let m0 := m.reset
  match r with
  | .err e => (m0, .error (.osError e))
  | .ok bytes nl cl fl ct => (m0.deliver bytes nl cl fl ct, .ok ())

/-! ## Opening an endpoint (`Can::open`) -/

/-- System calls `Can::open` can perform, recorded in order.  `closeFd` is
the `libc::close` issued by `Can`'s `Drop` when a constructed `Can` value is
dropped on an error path. -/
inductive Syscall where
  | socketCreate
  | nameResolve
  | setsockoptTimestamp
  | setsockoptFdFrames
  | bindCall
  | closeFd (fd : Int)
deriving DecidableEq, Repr

/-- Predicate for a `closeFd` trace entry. -/
def Syscall.isClose : Syscall → Bool
  | .closeFd _ => true
  | _ => false

/-- Environment for one `Can::open` run: the return values (and errnos on
failure) of each OS call the function makes.  `fdframes_ret` is the return
value of the `CAN_RAW_FD_FRAMES` `setsockopt`; the code never reads it. -/
structure OpenEnv where
  socket_ret : Int
  resolve_ret : Int
  resolve_errno : Int
  ts_ret : Int
  ts_errno : Int
  fdframes_ret : Int
  bind_ret : Int
  bind_errno : Int
deriving DecidableEq, Repr

/-- Trace entries of `Can`'s `Drop`: `close(fd)` is called when `fd != 0`. -/
def dropClose (fd : Int) : List Syscall :=
  if fd ≠ 0 then [.closeFd fd] else []

/-- Model of `Can::open`.  The interface name enters only through its byte
length (guard `ifname.len() > 16`) and through `if_nametoindex`, whose
outcome the environment supplies, so the model takes `ifname_len` directly.
Order of operations as in the source: length guard (before any syscall);
`socket`; fill `sockaddr_can`; `if_nametoindex`, returning
`last_os_error()` if it yields 0 — note the just-created socket fd is not
closed on this path, as no `Can` value exists yet; construct `Can { fd }`;
`setsockopt(SOL_SOCKET, SO_TIMESTAMP)` checked `< 0`;
`setsockopt(SOL_CAN_RAW, CAN_RAW_FD_FRAMES)` with unchecked return value;
`bind` checked `!= 0`.  On the checked failures after construction the
`Can` is dropped, closing the fd.  Returns the result paired with the
syscall trace. -/
def Can.open (ifname_len : Nat) (env : OpenEnv) : Except IoError Can × List Syscall :=
  if ifname_len > 16 then
    (.error .noSuchDevice, [])
  else
    let fd := env.socket_ret
    if env.resolve_ret = 0 then
      (.error (.osError env.resolve_errno), [.socketCreate, .nameResolve])
    else if env.ts_ret < 0 then
      (.error (.osError env.ts_errno),
        [.socketCreate, .nameResolve, .setsockoptTimestamp] ++ dropClose fd)
    else if env.bind_ret ≠ 0 then
      (.error (.osError env.bind_errno),
        [.socketCreate, .nameResolve, .setsockoptTimestamp, .setsockoptFdFrames,
          .bindCall] ++ dropClose fd)
    else
      (.ok ⟨fd⟩,
        [.socketCreate, .nameResolve, .setsockoptTimestamp, .setsockoptFdFrames,
          .bindCall])

/-! ## The multiplexer (`CanGroup`) -/

/-- Model of the private `CanData<T>` pair stored per registration. -/
structure CanData (T : Type) where
  can : Can
  user_data : T
deriving DecidableEq, Repr

/-- Model of `CanGroup<T>`.  `cans` is the registration list.  `eventKeys`
models the `u64` field of each element of the `events` vector: the code
stores there the raw address of a `CanData` element of `cans`, modeled as
that element's index.  `epollRegs` models the epoll interest list: for each
registered fd, the event key the kernel will hand back with a readiness
event on that fd.  The shared `msg` buffer is modeled separately by `Msg`
and `Can.recv`; `next` below records the endpoint and tag of each receive
instead. -/
structure CanGroup (T : Type) where
  cans : List (CanData T)
  eventKeys : List Nat
  epollRegs : List (Int × Nat)
deriving Repr

/-- Model of `CanGroup::new` (with the epoll instance created): no
registrations, no events, empty interest list. -/
def CanGroup.new (T : Type) : CanGroup T :=
  ⟨[], [], []⟩

/-- Model of `CanGroup::add` with all `epoll_ctl` calls succeeding (the
claims below concern groups whose registration succeeded).  Faithful to the
source: first every previously registered fd is removed from the epoll set
(`EPOLL_CTL_DEL` loop over `0..events.len()`); the new pair is pushed and an
event slot is appended; then for every `i` the code sets
`events[i].events = EPOLLIN` and `events[i].u64` to the address of
`self.cans.last()` — the last element, for every `i` — and registers
`cans[i].fd` with a copy of `events[i]` (`EPOLL_CTL_ADD`).  So after `add`
every fd's registered key is the index of the last registration. -/
def CanGroup.add {T : Type} (g : CanGroup T) (can : Can) (user_data : T) : CanGroup T :=
  let cans := g.cans ++ [⟨can, user_data⟩]
  let lastIdx := cans.length - 1
  ⟨cans, List.replicate cans.length lastIdx, cans.map (fun c => (c.can.fd, lastIdx))⟩

/-- Kernel side of `epoll_wait`: for each ready fd, the event handed back
carries the key registered for that fd, which `next` then dereferences as a
`*mut CanData<T>` — modeled by looking the key up in `cans`. -/
def epollWait {T : Type} (g : CanGroup T) (readyFds : List Int) : List (CanData T) :=
  readyFds.filterMap (fun fd =>
    ((g.epollRegs.find? (fun r => r.1 == fd)).map Prod.snd).bind (fun k => g.cans.get? k))

/-- Record of one handler invocation performed by `next`: the fd the receive
was performed on and the user tag passed to the handler. -/
structure Dispatch (T : Type) where
  fd : Int
  tag : T
deriving DecidableEq, Repr

/-- Dispatch record for a resolved `CanData`. -/
def mkDispatch {T : Type} (c : CanData T) : Dispatch T :=
  ⟨c.can.fd, c.user_data⟩

/-- The per-event loop body of `CanGroup::next`: for each event in order,
perform `(*can_data).can.recv(&mut self.msg)?` — `recvErr fd` gives the
errno when that receive fails — and on success invoke the handler
(recorded as a `Dispatch`).  The `?` returns the error immediately, so a
failure ends the loop: later events produce no receive and no handler call.
Returns the handler invocations actually performed and the error, if any. -/
def dispatchAll {T : Type} (recvErr : Int → Option Int) :
    List (CanData T) → List (Dispatch T) × Option IoError
  | [] => ([], none)
  | c :: rest =>
    match recvErr c.can.fd with
    | some e => ([], some (.osError e))
    | none =>
      (mkDispatch c :: (dispatchAll recvErr rest).1, (dispatchAll recvErr rest).2)

/-- Model of `CanGroup::next`.  The environment supplies the `epoll_wait`
outcome: `none` models a `-1` return with errno `waitErrno`, and
`some readyFds` models a return of the events for the ready fds (resolved
through the interest list by `epollWait`).  If no event fired the function
returns `Ok(false)`; otherwise it runs the dispatch loop and returns
`Ok(true)`, or the first receive error.  The first component is the
function's `Result<bool, io::Error>`; the second is the list of handler
invocations performed (also on the error path, where the handler ran for
the events dispatched before the failure). -/
def CanGroup.next {T : Type} (g : CanGroup T) (waitRes : Option (List Int))
    (waitErrno : Int) (recvErr : Int → Option Int) :
    Except IoError Bool × List (Dispatch T) :=
  match waitRes with
  | none => (.error (.osError waitErrno), [])
  | some readyFds =>
    let evs := epollWait g readyFds
    if evs.isEmpty then
      (.ok false, [])
    else
      match (dispatchAll recvErr evs).2 with
      | none => (.ok true, (dispatchAll recvErr evs).1)
      | some e => (.error e, (dispatchAll recvErr evs).1)

/-! ## Theorems about the timestamp decoder -/

instance exceptDecEq {e a : Type} [DecidableEq e] [DecidableEq a] :
    DecidableEq (Except e a) := fun x y =>
  match x, y with
  | .ok v, .ok w =>
    if h : v = w then isTrue (by rw [h]) else isFalse (fun hc => h (Except.ok.inj hc))
  | .ok _, .error _ => isFalse (fun hc => Except.noConfusion hc)
  | .error _, .ok _ => isFalse (fun hc => Except.noConfusion hc)
  | .error v, .error w =>
    if h : v = w then isTrue (by rw [h]) else isFalse (fun hc => h (Except.error.inj hc))

/-- Every error returned by `decode_timestamp` is the `Unsupported` soft
error: the decoder escalates nothing. -/
theorem decode_timestamp_error_eq (msgs : List Cmsg) (e : IoError)
    (h : decode_timestamp msgs = .error e) : e = .unsupportedTs := by
  induction msgs with
  | nil =>
    simp only [decode_timestamp] at h
    exact (Except.error.inj h).symm
  | cons c rest ih =>
    simp only [decode_timestamp] at h
    by_cases hl : c.cmsg_level ≠ SOL_SOCKET
    · rw [if_pos hl] at h
      exact (Except.error.inj h).symm
    · rw [if_neg hl] at h
      by_cases ht1 : c.cmsg_type = SO_TIMESTAMP
      · rw [if_pos ht1] at h
        exact Except.noConfusion h
      · rw [if_neg ht1] at h
        by_cases ht2 : c.cmsg_type = SO_TIMESTAMPING
        · rw [if_pos ht2] at h
          exact Except.noConfusion h
        · rw [if_neg ht2] at h
          exact ih h

/-- Unfolding of `solScan` on a message at level `SOL_SOCKET`. -/
theorem solScan_cons_sol (c : Cmsg) (rest : List Cmsg) (hl : c.cmsg_level = SOL_SOCKET) :
    solScan (c :: rest) = c :: solScan rest := by
  simp [solScan, List.takeWhile_cons, hl]

/-- Unfolding of `solScan` on a message at another level. -/
theorem solScan_cons_other (c : Cmsg) (rest : List Cmsg) (hl : c.cmsg_level ≠ SOL_SOCKET) :
    solScan (c :: rest) = [] := by
  simp [solScan, List.takeWhile_cons, hl]

/-- The decoder returns the `Unsupported` error exactly when no message of a
supported timestamp type occurs in the scanned `SOL_SOCKET` leading run. -/
theorem decode_timestamp_unsupported_iff (msgs : List Cmsg) :
    decode_timestamp msgs = .error .unsupportedTs ↔
      ∀ c ∈ solScan msgs, c.cmsg_type ≠ SO_TIMESTAMP ∧ c.cmsg_type ≠ SO_TIMESTAMPING := by
  induction msgs with
  | nil => simp [decode_timestamp, solScan]
  | cons c rest ih =>
    by_cases hl : c.cmsg_level = SOL_SOCKET
    · have hnl : ¬(c.cmsg_level ≠ SOL_SOCKET) := by simpa using hl
      by_cases ht1 : c.cmsg_type = SO_TIMESTAMP
      · simp only [decode_timestamp]
        rw [if_neg hnl, if_pos ht1, solScan_cons_sol c rest hl]
        constructor
        · intro h
          exact Except.noConfusion h
        · intro h
          exact absurd ht1 (h c (List.mem_cons_self c _)).1
      · by_cases ht2 : c.cmsg_type = SO_TIMESTAMPING
        · simp only [decode_timestamp]
          rw [if_neg hnl, if_neg ht1, if_pos ht2, solScan_cons_sol c rest hl]
          constructor
          · intro h
            exact Except.noConfusion h
          · intro h
            exact absurd ht2 (h c (List.mem_cons_self c _)).2
        · simp only [decode_timestamp]
          rw [if_neg hnl, if_neg ht1, if_neg ht2, solScan_cons_sol c rest hl]
          constructor
          · intro h
            rw [List.forall_mem_cons]
            exact ⟨⟨ht1, ht2⟩, ih.mp h⟩
          · intro h
            rw [List.forall_mem_cons] at h
            exact ih.mpr h.2
    · simp only [decode_timestamp]
      rw [if_pos hl, solScan_cons_other c rest hl]
      simp

/-- C9: `Msg::timestamp` scans the control-message chain only while messages
are at level `SOL_SOCKET` — the run it can visit is `solScan msgs` — and it
returns the `Unsupported` soft error exactly when no `SO_TIMESTAMP` or
`SO_TIMESTAMPING` message occurs in that scanned leading run; every error it
can return is that `Unsupported` error, so a decode failure is never
escalated to any other error. -/
theorem C9_unsupported_scan (msgs : List Cmsg) :
    (decode_timestamp msgs = .error .unsupportedTs ↔
      ∀ c ∈ solScan msgs, c.cmsg_type ≠ SO_TIMESTAMP ∧ c.cmsg_type ≠ SO_TIMESTAMPING) ∧
    (∀ e : IoError, decode_timestamp msgs = .error e → e = .unsupportedTs) :=
  ⟨decode_timestamp_unsupported_iff msgs, fun e h => decode_timestamp_error_eq msgs e h⟩

/-- Witness for C9 at a concrete chain: one `SOL_SOCKET` message of an
unsupported type decodes to the `Unsupported` error. -/
theorem C9_unsupported_scan_witness :
    decode_timestamp [⟨SOL_SOCKET, 5, .timeval ⟨0, 0⟩⟩] = .error .unsupportedTs ∧
    IoError.unsupportedTs = .unsupportedTs :=
  ⟨(C9_unsupported_scan [⟨SOL_SOCKET, 5, .timeval ⟨0, 0⟩⟩]).1.mpr (by decide),
   (C9_unsupported_scan [⟨SOL_SOCKET, 5, .timeval ⟨0, 0⟩⟩]).2 .unsupportedTs (by decide)⟩

/-- C2 (code bug, evaluated at the failing input): for a `SOL_SOCKET` /
`SO_TIMESTAMP` control message with `tv_sec = 1`, `tv_usec = 0`, the decoder
returns a duration of `10^15` nanoseconds — it wraps the computed nanosecond
count `tv_sec * 10^9 + tv_usec * 10^3` in `Duration::milliseconds` — whereas
a duration whose total length is that count of nanoseconds would be `10^9`
nanoseconds long. -/
theorem C2_timestamp_unit_bug :
    decode_timestamp [⟨SOL_SOCKET, SO_TIMESTAMP, .timeval ⟨1, 0⟩⟩] =
      .ok ⟨1000000000000000⟩ ∧
    Duration.nanos ⟨1000000000000000⟩ ≠ 1 * 1000000000 + 0 * 1000 := by
  decide

/-! ## Theorems about the receive buffer -/

/-- An FD frame datagram as written by the kernel: 72 bytes, `can_id = 0x123`
little endian, `len = 64`, `flags = 0`, 64 payload bytes of value 170. -/
def fdFrameBytes : List Nat :=
  [35, 1, 0, 0, 64, 0, 0, 0] ++ List.replicate 64 170

/-- A classic CAN frame datagram as written by the kernel: 16 bytes,
`can_id = 7`, `len = 8`, payload `[1..8]` — only the first 16 bytes of the
frame region are written by this receive. -/
def classicFrameBytes : List Nat :=
  [7, 0, 0, 0, 8, 0, 0, 0, 1, 2, 3, 4, 5, 6, 7, 8]

/-- Buffer state after `Msg::new` (uninitialized contents taken as zeros)
followed by a successful receive of the full FD frame. -/
def msgAfterFd : Msg :=
  ((Can.mk 3).recv (Msg.new (List.replicate 72 0) []) (.ok fdFrameBytes 24 32 0 [])).1

/-- Buffer state after the FD frame receive followed by a successful short
receive of the 16-byte classic frame into the same buffer. -/
def msgAfterClassic : Msg :=
  ((Can.mk 3).recv msgAfterFd (.ok classicFrameBytes 24 32 0 [])).1

/-- C3 (counterexample): after a successful 64-byte FD frame receive followed
by a successful 16-byte classic frame receive, `reset()` and then the index
accessor at payload position 20 yields byte 170 — a byte of the FD frame
received before the most recent successful receive; the most recent receive
delivered `classicFrameBytes`, which contains no byte 170 and declares a
payload length of 8.  So an accessor after `reset()` does expose data from a
frame received before the most recent successful receive, contradicting the
claim. -/
theorem C3_stale_byte_cex :
    (Msg.reset msgAfterClassic).index 20 = some 170 ∧
    fdFrameBytes.getD 28 0 = 170 ∧
    170 ∉ classicFrameBytes ∧
    (Msg.reset msgAfterClassic).len = 8 := by
  decide

/-- C3 (amended): `Msg::reset` restores `msg_iovlen` to 1, the iovec length
to the frame-region size, the name length and control length to their
expected sizes, and clears `msg_flags`; it does not touch the frame region
or the control messages, so the accessors — which read the raw frame region
— still see every byte left there by earlier receives that the most recent
(possibly short) receive did not overwrite. -/
theorem C3_reset_restores_lengths (m : Msg) :
    (m.reset).msg_iovlen = 1 ∧
    (m.reset).iov_len = sizeof_canfd_frame ∧
    (m.reset).msg_namelen = sizeof_sockaddr_can ∧
    (m.reset).msg_controllen = sizeof_ctrlmsg ∧
    (m.reset).msg_flags = 0 ∧
    (m.reset).frame = m.frame ∧
    (m.reset).ctrl = m.ctrl :=
  ⟨rfl, rfl, rfl, rfl, rfl, rfl, rfl⟩

/-- C10: byte indexing on `Msg` is bounded by the fixed 64-byte `data` array
and not by the frame's `len` field: for every `i < 64` it returns byte
`8 + i` of the raw frame region — whatever `Msg::len` is, so positions in
`len()..64` yield bytes that are not part of the current frame's payload —
and only `i ≥ 64` is rejected (out of bounds). -/
theorem C10_index_array_bounded (m : Msg) (i : Nat) :
    (i < 64 → m.index i = some (m.frame.getD (8 + i) 0)) ∧
    (64 ≤ i → m.index i = none) := by
  constructor
  · intro h
    simp [Msg.index, h]
  · intro h
    simp [Msg.index, Nat.not_lt.mpr h]

/-- Witness for C10 at a concrete buffer: after the short classic receive
the frame declares 8 payload bytes, yet index 20 (≥ len, < 64) is answered
from the array, and index 70 is rejected. -/
theorem C10_index_array_bounded_witness :
    msgAfterClassic.index 20 = some (msgAfterClassic.frame.getD 28 0) ∧
    msgAfterClassic.index 70 = none :=
  ⟨(C10_index_array_bounded msgAfterClassic 20).1 (by decide),
   (C10_index_array_bounded msgAfterClassic 70).2 (by decide)⟩

/-! ## Theorems about `Can::open` -/

/-- Environment in which name resolution fails (`if_nametoindex` returns 0,
errno 19 = ENODEV) and every other call would succeed. -/
def envResolveFail : OpenEnv :=
  ⟨3, 0, 19, 0, 0, 0, 0, 0⟩

/-- Environment in which every call succeeds except the `CAN_RAW_FD_FRAMES`
`setsockopt`, which returns -1. -/
def envFdFramesFail : OpenEnv :=
  ⟨3, 7, 0, 0, 0, -1, 0, 0⟩

/-- Environment in which every call up to the `SO_TIMESTAMP` `setsockopt`
succeeds and that `setsockopt` fails with errno 13. -/
def envTsFail : OpenEnv :=
  ⟨3, 7, 0, -1, 13, 0, 0, 0⟩

/-- C6 (counterexample): a 16-byte interface name exceeds the platform
device-name limit of 15 usable characters, yet `Can::open` does not take the
early `DeviceNotFound` return for it: the guard only rejects lengths above
16, so the name is passed to resolution — the trace shows the socket
creation and the resolution call, and the failure surfaces as the OS
resolution error, not as the guard's `DeviceNotFound` value. -/
theorem C6_sixteen_char_name_resolved :
    Can.open 16 envResolveFail = (.error (.osError 19), [.socketCreate, .nameResolve]) ∧
    Syscall.nameResolve ∈ (Can.open 16 envResolveFail).2 ∧
    (Can.open 16 envResolveFail).1 ≠ .error .noSuchDevice := by
  decide

/-- C6 (amended): the guard in `Can::open` rejects names longer than 16
bytes: for every such name it fails with the `DeviceNotFound` error
(`ErrorKind::Other`, "No such device") before any system call — in
particular without resolving the name.  Names of exactly 16 bytes, although
beyond the platform's 15-usable-character limit, pass the guard. -/
theorem C6_long_name_rejected (n : Nat) (env : OpenEnv) (h : 16 < n) :
    Can.open n env = (.error .noSuchDevice, []) := by
  simp [Can.open, h]

/-- Witness for the amended C6 at a 17-byte name. -/
theorem C6_long_name_rejected_witness :
    Can.open 17 envResolveFail = (.error .noSuchDevice, []) :=
  C6_long_name_rejected 17 envResolveFail (by decide)

/-- C7 (code bug, evaluated at the failing input): for a short, unresolvable
name, `Can::open` creates the socket first, then fails resolution and
returns — the trace contains the socket creation and no `close`, so the
socket is created and left open although the operation failed before
binding. -/
theorem C7_socket_leaked_on_resolve_failure :
    Can.open 5 envResolveFail = (.error (.osError 19), [.socketCreate, .nameResolve]) ∧
    Syscall.socketCreate ∈ (Can.open 5 envResolveFail).2 ∧
    ((Can.open 5 envResolveFail).2.all (fun s => !s.isClose)) = true := by
  decide

/-- C8 (counterexample): with every call succeeding except the
`CAN_RAW_FD_FRAMES` option — whose return value the code never reads —
`Can::open` still returns a `Can` value and no error: an option-setting
failure is silently ignored. -/
theorem C8_fdframes_failure_ignored :
    envFdFramesFail.fdframes_ret < 0 ∧
    Can.open 5 envFdFramesFail =
      (.ok ⟨3⟩,
        [.socketCreate, .nameResolve, .setsockoptTimestamp, .setsockoptFdFrames,
          .bindCall]) := by
  decide

/-- C8 (amended): of the fallible calls in `Can::open`, exactly the
`SO_TIMESTAMP` `setsockopt` and `bind` are checked: when the name passes the
guard and resolves, a failing `SO_TIMESTAMP` call yields `SocketError`
wrapping its OS errno, and a failing `bind` (with the timestamp call
succeeding) yields `SocketError` wrapping the bind errno — in both cases no
`Can` is returned.  The return values of socket creation and of the
`CAN_RAW_FD_FRAMES` option are not checked, so the result never depends on
the latter. -/
theorem C8_checked_calls (n : Nat) (env : OpenEnv) (hn : n ≤ 16)
    (hres : env.resolve_ret ≠ 0) :
    (env.ts_ret < 0 → (Can.open n env).1 = .error (.osError env.ts_errno)) ∧
    (0 ≤ env.ts_ret → env.bind_ret ≠ 0 →
      (Can.open n env).1 = .error (.osError env.bind_errno)) ∧
    (0 ≤ env.ts_ret → env.bind_ret = 0 → (Can.open n env).1 = .ok ⟨env.socket_ret⟩) ∧
    (∀ v : Int, (Can.open n { env with fdframes_ret := v }).1 = (Can.open n env).1) := by
  have hguard : ¬16 < n := Nat.not_lt.mpr hn
  refine ⟨?_, ?_, ?_, ?_⟩
  · intro hts
    simp [Can.open, hguard, hres, hts]
  · intro hts hbind
    simp [Can.open, hguard, hres, Int.not_lt.mpr hts, hbind]
  · intro hts hbind
    simp [Can.open, hguard, hres, Int.not_lt.mpr hts, hbind]
  · intro v
    simp [Can.open, hguard, hres]

/-- Witness for the amended C8: a failing `SO_TIMESTAMP` call with errno 13
is propagated, a failing `bind` is propagated, and the result is independent
of the `CAN_RAW_FD_FRAMES` return value. -/
theorem C8_checked_calls_witness :
    (Can.open 5 envTsFail).1 = .error (.osError 13) ∧
    (Can.open 5 { envTsFail with ts_ret := 0, bind_ret := -1, bind_errno := 22 }).1 =
      .error (.osError 22) ∧
    (Can.open 5 { envFdFramesFail with fdframes_ret := 0 }).1 =
      (Can.open 5 envFdFramesFail).1 :=
  ⟨(C8_checked_calls 5 envTsFail (by decide) (by decide)).1 (by decide),
   ((C8_checked_calls 5 { envTsFail with ts_ret := 0, bind_ret := -1, bind_errno := 22 }
      (by decide) (by decide)).2.1 (by decide) (by decide)),
   ((C8_checked_calls 5 envFdFramesFail (by decide) (by decide)).2.2.2 0)⟩

/-! ## Theorems about `CanGroup` -/

/-- Running the dispatch loop over events split as `pre ++ c :: post`, where
every receive in `pre` succeeds and the receive for `c` fails with errno
`e`: the handler runs exactly for `pre`, the error is returned, and no
receive or handler call happens for `c` or for `post`. -/
theorem dispatchAll_split (T : Type) (recvErr : Int → Option Int)
    (pre : List (CanData T)) (c : CanData T) (post : List (CanData T)) (e : Int)
    (hpre : ∀ d ∈ pre, recvErr d.can.fd = none) (hc : recvErr c.can.fd = some e) :
    dispatchAll recvErr (pre ++ c :: post) = (pre.map mkDispatch, some (.osError e)) := by
  induction pre with
  | nil =>
    simp only [List.nil_append, dispatchAll, hc, List.map_nil]
  | cons d ds ih =>
    have hd : recvErr d.can.fd = none := hpre d (List.mem_cons_self d ds)
    have hds : ∀ x ∈ ds, recvErr x.can.fd = none :=
      fun x hx => hpre x (List.mem_cons_of_mem d hx)
    simp only [List.cons_append, dispatchAll, hd, List.append_eq, ih hds, List.map_cons]

/-- A list of the form `pre ++ c :: post` is never empty. -/
theorem append_cons_isEmpty_false (T : Type) (pre : List (CanData T)) (c : CanData T)
    (post : List (CanData T)) : (pre ++ c :: post).isEmpty = false := by
  cases pre <;> rfl

/-- C4: during one `next` cycle, if the receives for the ready events before
some event all succeed and the receive for that event fails, the `IoError`
is returned at once and only the earlier events were dispatched: the
remaining ready events of the cycle get no receive and no handler call —
fail fast, no retries, no partial-success reporting. -/
theorem C4_fail_fast (T : Type) (g : CanGroup T) (ready : List Int) (we e : Int)
    (recvErr : Int → Option Int) (pre post : List (CanData T)) (c : CanData T)
    (hsplit : epollWait g ready = pre ++ c :: post)
    (hpre : ∀ d ∈ pre, recvErr d.can.fd = none)
    (hc : recvErr c.can.fd = some e) :
    CanGroup.next g (some ready) we recvErr =
      (.error (.osError e), pre.map mkDispatch) := by
  have hda := dispatchAll_split T recvErr pre c post e hpre hc
  have hne := append_cons_isEmpty_false T pre c post
  simp only [CanGroup.next, hsplit, hne, Bool.false_eq_true, if_false, hda]

/-- Witness for C4: a one-endpoint group whose single ready event's receive
fails with errno 5 yields that error and an empty dispatch list. -/
theorem C4_fail_fast_witness :
    CanGroup.next ((CanGroup.new Nat).add ⟨3⟩ 10) (some [3]) 0 (fun _ => some 5) =
      (.error (.osError 5), []) :=
  C4_fail_fast Nat ((CanGroup.new Nat).add ⟨3⟩ 10) [3] 0 5 (fun _ => some 5)
    [] [] ⟨⟨3⟩, 10⟩ (by decide) (by decide) (by decide)

/-- C5: whenever `next` returns without an error, it returns `true` exactly
when at least one readiness event fired during the call, and `false` exactly
when the wait returned with zero events — in which case nothing was
dispatched. -/
theorem C5_true_iff_event_fired (T : Type) (g : CanGroup T) (ready : List Int)
    (we : Int) (recvErr : Int → Option Int) (b : Bool) (ds : List (Dispatch T))
    (h : CanGroup.next g (some ready) we recvErr = (.ok b, ds)) :
    (b = true ↔ epollWait g ready ≠ []) ∧ (b = false → ds = []) := by
  simp only [CanGroup.next] at h
  by_cases he : (epollWait g ready).isEmpty
  · rw [if_pos he] at h
    have hb : (Except.ok false : Except IoError Bool) = .ok b := congrArg Prod.fst h
    have hds : ([] : List (Dispatch T)) = ds := congrArg Prod.snd h
    have hb2 : b = false := (Except.ok.inj hb).symm
    have hnil : epollWait g ready = [] := List.isEmpty_iff.mp he
    constructor
    · rw [hb2, hnil]
      simp
    · intro _
      exact hds.symm
  · rw [if_neg he] at h
    rcases hdp : (dispatchAll recvErr (epollWait g ready)).2 with _ | e
    · rw [hdp] at h
      have hb : (Except.ok true : Except IoError Bool) = .ok b := congrArg Prod.fst h
      have hb2 : b = true := (Except.ok.inj hb).symm
      have hne : epollWait g ready ≠ [] := by
        intro hn
        exact he (by rw [hn]; rfl)
      constructor
      · exact ⟨fun _ => hne, fun _ => hb2⟩
      · intro hf
        rw [hb2] at hf
        exact absurd hf (by decide)
    · rw [hdp] at h
      have hb : (Except.error e : Except IoError Bool) = .ok b :=
        congrArg Prod.fst h
      exact Except.noConfusion hb

/-- Witness for C5: on an empty group with no ready fds, `next` returns
`false` and dispatched nothing. -/
theorem C5_true_iff_event_fired_witness :
    ((false : Bool) = true ↔ epollWait (CanGroup.new Nat) ([] : List Int) ≠ []) ∧
    ((false : Bool) = false → ([] : List (Dispatch Nat)) = []) :=
  C5_true_iff_event_fired Nat (CanGroup.new Nat) [] 0 (fun _ => none) false []
    (by decide)

/-- A two-endpoint group: endpoint A = fd 3 with tag 10 added first,
endpoint B = fd 4 with tag 20 added second. -/
def groupAB : CanGroup Nat :=
  ((CanGroup.new Nat).add ⟨3⟩ 10).add ⟨4⟩ 20

/-- C1 (code bug, evaluated at the failing input): after registering two
endpoints, both fds are registered in the epoll interest list with the key
of the *last* registration (`add` stores `self.cans.last()` for every event
slot), so when one frame is ready on each endpoint in a single cycle the
handler is indeed invoked exactly twice — but both invocations carry
endpoint B's tag 20 and both receives are performed on B's socket fd 4;
endpoint A's tag 10 and fd 3 never reach the handler, contradicting the
claim that each event is resolved back to its own registration. -/
theorem C1_resolves_to_last_registration :
    groupAB.epollRegs = [(3, 1), (4, 1)] ∧
    CanGroup.next groupAB (some [3, 4]) 0 (fun _ => none) =
      (.ok true, [⟨4, 20⟩, ⟨4, 20⟩]) ∧
    (CanGroup.next groupAB (some [3, 4]) 0 (fun _ => none)).2.map Dispatch.tag =
      [20, 20] ∧
    10 ∉ (CanGroup.next groupAB (some [3, 4]) 0 (fun _ => none)).2.map Dispatch.tag ∧
    3 ∉ (CanGroup.next groupAB (some [3, 4]) 0 (fun _ => none)).2.map Dispatch.fd := by
  decide

end Socketcan2
